import Mathlib

/-!
Shallow embedding of the danmaku query/aggregation service: the Express +
sqlite3 backend of the repository.  Pure models of the parameter
normalizers, the SQL text assembly, and the row semantics of each endpoint,
followed by theorems about them.
-/

/-- ASCII lower-casing, the case folding used by SQLite NOCASE and LIKE. -/
def toLowerA (c : Char) : Char :=
  if 'A' ≤ c ∧ c ≤ 'Z' then Char.ofNat (c.toNat + 32) else c

/-- Lower-case a character list (ASCII). -/
def lowerL (l : List Char) : List Char := l.map toLowerA

/-- Case-insensitive character equality (ASCII). -/
def eqCI (a b : Char) : Bool := toLowerA a == toLowerA b

/-- Whitespace recognized by the JS parseInt and String.trim (ASCII part). -/
def isWsChar (c : Char) : Bool :=
  c == ' ' || c == '\t' || c == '\n' || c == '\r' || c == '\x0b' || c == '\x0c'

/-- Accumulate a run of decimal digits into a natural number. -/
def digitsToNat : List Char → Nat → Nat
  | [], acc => acc
  | c :: cs, acc => digitsToNat cs (acc * 10 + (c.toNat - '0'.toNat))

/-- JS parseInt(s, 10): skip leading whitespace, read an optional sign, then
the longest prefix of decimal digits; the none result models NaN. -/
def parseIntJs (s : String) : Option Int :=
  let l := s.data.dropWhile isWsChar
  let signRest : Int × List Char :=
    match l with
    | '-' :: t => (-1, t)
    | '+' :: t => (1, t)
    | t => (1, t)
  let ds := signRest.2.takeWhile Char.isDigit
  if ds.isEmpty then none else some (signRest.1 * (digitsToNat ds 0 : Int))

/-- JS truthiness of an optional string query parameter: present and
non-empty.  An empty string is falsy, exactly as in the handlers. -/
def truthyVal : Option String → Option String
  | none => none
  | some s => if s.isEmpty then none else some s

/-- The JS default expression (x || d) for an optional string parameter. -/
def orDefault (o : Option String) (d : String) : String :=
  match truthyVal o with
  | none => d
  | some s => s

/-- Source: function parseLimit(raw, fallback, max). -/
def parseLimit (raw : String) (fallback maxv : Int) : Int :=
  match parseIntJs raw with
  | none => fallback
  | some parsed => if parsed ≤ 0 then fallback else min parsed maxv

/-- Source: function parseHours(raw, fallback). -/
def parseHours (raw : String) (fallback : Int) : Int :=
  match parseIntJs raw with
  | none => fallback
  | some parsed => if parsed ≤ 0 then fallback else parsed

/-- Source: function buildTimestampOrderClause(). -/
def buildTimestampOrderClause : String :=
  "COALESCE(timestamp, strftime(\x27%s\x27, created_at))"

/-- name.replace of every double-quote character by two of them, as done for
the table identifier in the table-dump endpoint. -/
def escapeChars : List Char → List Char
  | [] => []
  | c :: cs => if c = '"' then '"' :: '"' :: escapeChars cs else c :: escapeChars cs

/-- String form of the identifier escaping. -/
def escapeIdent (s : String) : String := ⟨escapeChars s.data⟩

/-- JS template interpolation of a parseInt result; NaN renders as NaN. -/
def renderNum : Option Int → String
  | none => "NaN"
  | some n => toString n

/-- SQL text built by the table-dump endpoint (GET /table/:name).  The
identifier is escaped and placed in a quoted position; limit and offset are
the parseInt results interpolated by the template literal. -/
def tableDumpSql (name : String) (limitRaw offsetRaw : Option String) : String :=
  "SELECT * FROM \"" ++ escapeIdent name ++ "\" LIMIT " ++
    renderNum (parseIntJs (orDefault limitRaw "100")) ++ " OFFSET " ++
    renderNum (parseIntJs (orDefault offsetRaw "0"))

/-- SQL lexer fragment: the body of a double-quoted identifier, entered after
the opening quote.  A doubled quote is one literal quote character inside the
identifier; a lone quote closes it.  Returns the identifier text and the
remaining input. -/
def scanIdentBody : List Char → Option (List Char × List Char)
  | [] => none
  | '"' :: '"' :: cs => (scanIdentBody cs).map (fun p => ('"' :: p.1, p.2))
  | '"' :: cs => some ([], cs)
  | c :: cs => (scanIdentBody cs).map (fun p => (c :: p.1, p.2))

/-- Consume an exact literal prefix of the input, or fail. -/
def dropLit : List Char → List Char → Option (List Char)
  | [], s => some s
  | _ :: _, [] => none
  | a :: as, b :: bs => if a = b then dropLit as bs else none

/-- Parse the table-dump statement shape: the fixed SELECT prefix, then one
double-quoted identifier; returns the identifier and the tail of the
statement. -/
def parseTableStmt (sql : String) : Option (List Char × List Char) :=
  match dropLit ("SELECT * FROM \"").data sql.data with
  | none => none
  | some rest => scanIdentBody rest

/-- SQLite LIKE with COLLATE NOCASE and no ESCAPE clause: a percent sign
matches any run of characters, an underscore matches exactly one character,
any other pattern character matches case-insensitively (ASCII). -/
def likeMatch : List Char → List Char → Bool
  | [], s => s.isEmpty
  | '%' :: ps, s => (List.range (s.length + 1)).any (fun i => likeMatch ps (s.drop i))
  | '_' :: ps, s =>
      match s with
      | [] => false
      | _ :: t => likeMatch ps t
  | p :: ps, s =>
      match s with
      | [] => false
      | c :: t => eqCI p c && likeMatch ps t

/-- The LIKE pattern the handlers build from a user text: percent, the raw
text, percent. -/
def likePat (k : List Char) : List Char := '%' :: (k ++ ['%'])

/-- A pattern text free of the LIKE wildcards percent and underscore. -/
def noWild (k : List Char) : Bool := k.all (fun c => c != '%' && c != '_')

/-- Case-insensitive substring relation: the lowered needle occurs inside
the lowered haystack. -/
def SubstrCI (k s : List Char) : Prop :=
  ∃ a b, lowerL s = a ++ lowerL k ++ b

/-- Does the needle occur as a prefix of the haystack? -/
def startsList : List Char → List Char → Bool
  | [], _ => true
  | _ :: _, [] => false
  | a :: as, b :: bs => a == b && startsList as bs

/-- Does the needle occur anywhere inside the haystack? -/
def occursIn : List Char → List Char → Bool
  | n, [] => startsList n []
  | n, c :: t => startsList n (c :: t) || occursIn n t

/-- One row of the danmaku_messages table.  The created_at_epoch field is
the numeric value the store derives from created_at via strftime. -/
structure DanmakuMessage where
  id : Int
  open_id : String
  uname : String
  msg : String
  room_id : String
  timestamp : Option Int
  created_at_epoch : Int
deriving DecidableEq

/-- COALESCE(timestamp, strftime of created_at) read as a number: the
numeric effective time of the spec.  The engine itself does not compare by
this number when timestamp is NULL; see effSqlVal. -/
def effectiveTime (m : DanmakuMessage) : Int :=
  m.timestamp.getD m.created_at_epoch

/-- A SQLite scalar as the effective-time expression produces it: an
INTEGER when the timestamp column is set, else the TEXT that strftime
returns.  SQLite compares such values by storage class first: every
INTEGER orders below every TEXT; INTEGERs compare numerically and TEXTs
bytewise (here codepointwise, which agrees on the ASCII strftime output). -/
inductive SqliteVal where
  | int (n : Int)
  | text (s : List Char)
deriving DecidableEq

/-- Bytewise lexicographic order on TEXT values (BINARY collation),
comparing character codes. -/
def textLe : List Char → List Char → Bool
  | [], _ => true
  | _ :: _, [] => false
  | a :: as, b :: bs =>
      decide (a.toNat < b.toNat) || (a.toNat == b.toNat && textLe as bs)

/-- The SQLite ordering of the two storage classes involved. -/
def sqlValLe : SqliteVal → SqliteVal → Bool
  | SqliteVal.int a, SqliteVal.int b => decide (a ≤ b)
  | SqliteVal.int _, SqliteVal.text _ => true
  | SqliteVal.text _, SqliteVal.int _ => false
  | SqliteVal.text a, SqliteVal.text b => textLe a b

/-- The SQL value of COALESCE(timestamp, strftime(%s, created_at)) for a
row: the INTEGER timestamp when set, else the TEXT decimal rendering of the
creation time in epoch seconds (what strftime returns). -/
def effSqlVal (m : DanmakuMessage) : SqliteVal :=
  match m.timestamp with
  | some n => SqliteVal.int n
  | none => SqliteVal.text (toString m.created_at_epoch).data

/-- Insert into a list kept in descending key order. -/
def insertDescBy {α : Type} (key : α → Int) (x : α) : List α → List α
  | [] => [x]
  | y :: ys => if key y ≤ key x then x :: y :: ys else y :: insertDescBy key x ys

/-- Insertion sort by descending key: the ORDER BY [key] DESC model for
integer keys (e.g. the COUNT aggregate). -/
def sortDescBy {α : Type} (key : α → Int) : List α → List α
  | [] => []
  | x :: xs => insertDescBy key x (sortDescBy key xs)

/-- Insert into a list kept descending under the SQLite value order. -/
def insertDescBySql {α : Type} (key : α → SqliteVal) (x : α) : List α → List α
  | [] => [x]
  | y :: ys =>
      if sqlValLe (key y) (key x) then x :: y :: ys
      else y :: insertDescBySql key x ys

/-- Insertion sort descending under the SQLite value order: the model of
ORDER BY [expression] DESC when the expression can yield mixed storage
classes. -/
def sortDescBySql {α : Type} (key : α → SqliteVal) : List α → List α
  | [] => []
  | x :: xs => insertDescBySql key x (sortDescBySql key xs)

/-- COUNT(DISTINCT column) over the column values of the selected rows. -/
def countDistinct (l : List String) : Nat := l.dedup.length

/-- SELECT COUNT(*) FROM danmaku_messages. -/
def historyCount (db : List DanmakuMessage) : Nat := db.length

/-- SELECT COUNT(DISTINCT open_id) FROM danmaku_messages. -/
def uniqueUsersCount (db : List DanmakuMessage) : Nat :=
  countDistinct (db.map (fun m => m.open_id))

/-- The rows the engine's time-window WHERE admits: the effective-time
expression compared >= against the integer cutoff now - hours * 3600 by
SQLite value order.  A row with an integer timestamp passes iff the
timestamp reaches the cutoff; a NULL-timestamp row carries a TEXT value,
which orders above every INTEGER, so it passes every cutoff. -/
def windowRows (db : List DanmakuMessage) (now hours : Int) : List DanmakuMessage :=
  db.filter (fun m => sqlValLe (SqliteVal.int (now - hours * 3600)) (effSqlVal m))

/-- GET /stats/unique-users-24h: distinct senders over a fixed 24h window. -/
def uniqueUsers24hCount (db : List DanmakuMessage) (now : Int) : Nat :=
  countDistinct ((windowRows db now 24).map (fun m => m.open_id))

/-- One row of the top-senders aggregation. -/
structure TopUser where
  uname : String
  open_id : String
  messageCount : Nat
deriving DecidableEq

/-- GROUP BY open_id, uname keys of the selected rows, in first-occurrence
order. -/
def topUsersKeys (rows : List DanmakuMessage) : List (String × String) :=
  (rows.map (fun m => (m.open_id, m.uname))).dedup

/-- GET /stats/top-users: group the window rows by (open_id, uname), count
each group, order by count descending, truncate to the limit. -/
def topUsersRows (db : List DanmakuMessage) (now : Int)
    (limitRaw hoursRaw : Option String) : List TopUser :=
  let lim := parseLimit (orDefault limitRaw "10") 10 100
  let hours := parseHours (orDefault hoursRaw "24") 24
  let rows := windowRows db now hours
  let groups := (topUsersKeys rows).map (fun k =>
    TopUser.mk k.2 k.1
      ((rows.filter (fun m => m.open_id == k.1 && m.uname == k.2)).length))
  (sortDescBy (fun t => (t.messageCount : Int)) groups).take lim.toNat

/-- GET /messages/recent, before ordering and truncation: the optional
room_id equality predicate. -/
def recentFiltered (db : List DanmakuMessage) (roomId : Option String) :
    List DanmakuMessage :=
  match truthyVal roomId with
  | some r => db.filter (fun m => m.room_id == r)
  | none => db

/-- GET /messages/recent: filter, order by the SQL value of the
effective-time expression descending (the engine order: NULL-timestamp TEXT
rows above all integer-timestamp rows), truncate to the limit. -/
def recentRows (db : List DanmakuMessage) (roomId limitRaw : Option String) :
    List DanmakuMessage :=
  (sortDescBySql effSqlVal (recentFiltered db roomId)).take
    (parseLimit (orDefault limitRaw "50") 50 200).toNat

/-- GET /messages/by-user, branch selection on the two optional parameters:
a truthy openId selects the exact open_id equality branch (uname never
read); otherwise a truthy uname selects the LIKE branch on the display
name; otherwise no branch (the 400 path). -/
def byUserPred (openId uname : Option String) : Option (DanmakuMessage → Bool) :=
  match truthyVal openId with
  | some o => some (fun m => m.open_id == o)
  | none =>
    match truthyVal uname with
    | some u => some (fun m => likeMatch (likePat u.data) m.uname.data)
    | none => none

/-- GET /messages/by-user: the selected branch filter, ordered by effective
time descending and truncated to the limit; none models the 400 path. -/
def byUserRows (db : List DanmakuMessage)
    (openId uname limitRaw : Option String) : Option (List DanmakuMessage) :=
  (byUserPred openId uname).map (fun p =>
    (sortDescBy effectiveTime (db.filter p)).take
      (parseLimit (orDefault limitRaw "100") 100 500).toNat)

/-- JS String.trim on both ends (ASCII whitespace). -/
def trimJs (s : String) : String :=
  ⟨((s.data.dropWhile isWsChar).reverse.dropWhile isWsChar).reverse⟩

/-- The ?? chain over the keyword, keywords and q query parameters: first
value that is present (an empty string is present for ??). -/
def coalesceKw {α : Type} (a b c : Option α) : Option α :=
  match a with
  | some x => some x
  | none =>
    match b with
    | some x => some x
    | none => c

/-- Split a character list on commas; the JS String.split with a comma
separator (an empty input yields one empty piece). -/
def splitCommaL : List Char → List (List Char)
  | [] => [[]]
  | c :: cs =>
    if c = ',' then [] :: splitCommaL cs
    else
      match splitCommaL cs with
      | [] => [[c]]
      | h :: t => (c :: h) :: t

/-- String form of the comma split. -/
def splitComma (s : String) : List String := (splitCommaL s.data).map (fun l => ⟨l⟩)

/-- A query parameter value as express delivers it: a single string or a
repeated (pre-split) sequence. -/
def keywordsOf : Option (String ⊕ List String) → List String
  | none => []
  | some (Sum.inr l) => l
  | some (Sum.inl s) => splitComma s

/-- Keyword-list normalizer: split a single string on commas or accept the
sequence, trim every entry, drop the empties. -/
def normalizeKeywords (raw : Option (String ⊕ List String)) : List String :=
  ((keywordsOf raw).map trimJs).filter (fun k => !k.isEmpty)

/-- GET /messages/search WHERE predicate: the OR of one LIKE per keyword,
AND room_id equality when roomId is truthy. -/
def searchPred (kws : List String) (roomId : Option String)
    (m : DanmakuMessage) : Bool :=
  (kws.any (fun k => likeMatch (likePat k.data) m.msg.data)) &&
    (match truthyVal roomId with
     | some r => m.room_id == r
     | none => true)

/-- GET /messages/search rows for a given normalized keyword list. -/
def searchRowsOf (db : List DanmakuMessage) (kws : List String)
    (roomId limitRaw : Option String) : List DanmakuMessage :=
  (sortDescBy effectiveTime (db.filter (searchPred kws roomId))).take
    (parseLimit (orDefault limitRaw "100") 100 500).toNat

/-- A value bound as a positional statement parameter. -/
inductive SqlValue where
  | int (n : Int)
  | str (s : String)
deriving DecidableEq

/-- A built statement: its SQL text and its bound parameter list. -/
structure Stmt where
  sql : String
  params : List SqlValue
deriving DecidableEq

/-- Array.join with a separator, as used on the clause lists. -/
def joinSep (sep : String) : List String → String
  | [] => ""
  | [x] => x
  | x :: xs => x ++ sep ++ joinSep sep xs

/-- Statement of GET /table/:name: no bound parameters at all. -/
def tableDumpStmt (name : String) (limitRaw offsetRaw : Option String) : Stmt :=
  { sql := tableDumpSql name limitRaw offsetRaw, params := [] }

/-- Statement of GET /messages/recent. -/
def recentStmt (roomId limitRaw : Option String) : Stmt :=
  let lim := parseLimit (orDefault limitRaw "50") 50 200
  let base : String × List SqlValue :=
    match truthyVal roomId with
    | some r => ("WHERE " ++ joinSep " AND " ["room_id = ?"], [SqlValue.str r])
    | none => ("", [])
  { sql := "\n            SELECT *\n            FROM danmaku_messages\n            "
      ++ base.1
      ++ "\n            ORDER BY " ++ buildTimestampOrderClause
      ++ " DESC\n            LIMIT ?\n        "
  , params := base.2 ++ [SqlValue.int lim] }

/-- Statement of GET /messages/by-user; none models the 400 path. -/
def byUserStmt (openId uname limitRaw : Option String) : Option Stmt :=
  let lim := parseLimit (orDefault limitRaw "100") 100 500
  let branch : Option (String × List SqlValue) :=
    match truthyVal openId with
    | some o => some ("open_id = ?", [SqlValue.str o])
    | none =>
      match truthyVal uname with
      | some u => some ("uname LIKE ? COLLATE NOCASE",
          [SqlValue.str ("%" ++ u ++ "%")])
      | none => none
  branch.map (fun wb =>
    { sql := "\n            SELECT *\n            FROM danmaku_messages\n            WHERE "
        ++ wb.1
        ++ "\n            ORDER BY " ++ buildTimestampOrderClause
        ++ " DESC\n            LIMIT ?\n        "
    , params := wb.2 ++ [SqlValue.int lim] })

/-- Statement of GET /messages/search for a normalized, non-empty keyword
list; none models the 400 path on an empty list. -/
def searchStmt (raw : Option (String ⊕ List String))
    (roomId limitRaw : Option String) : Option Stmt :=
  let lim := parseLimit (orDefault limitRaw "100") 100 500
  let kws := normalizeKeywords raw
  if kws.isEmpty then none
  else
    let clauses := kws.map (fun _ => "msg LIKE ? COLLATE NOCASE")
    let params0 := kws.map (fun k => SqlValue.str ("%" ++ k ++ "%"))
    let w0 := "(" ++ joinSep " OR " clauses ++ ")"
    let wp : String × List SqlValue :=
      match truthyVal roomId with
      | some r => ("room_id = ? AND " ++ w0, SqlValue.str r :: params0)
      | none => (w0, params0)
    some
      { sql := "\n            SELECT *\n            FROM danmaku_messages\n            WHERE "
          ++ wp.1
          ++ "\n            ORDER BY " ++ buildTimestampOrderClause
          ++ " DESC\n            LIMIT ?\n        "
      , params := wp.2 ++ [SqlValue.int lim] }

/-- Statement of GET /stats/top-users. -/
def topUsersStmt (now : Int) (limitRaw hoursRaw : Option String) : Stmt :=
  let lim := parseLimit (orDefault limitRaw "10") 10 100
  let hours := parseHours (orDefault hoursRaw "24") 24
  let cutoff := now - hours * 3600
  { sql := "\n            SELECT uname, open_id, COUNT(*) AS messageCount\n            FROM danmaku_messages\n            WHERE "
      ++ buildTimestampOrderClause
      ++ " >= ?\n            GROUP BY open_id, uname\n            ORDER BY messageCount DESC\n            LIMIT ?\n        "
  , params := [SqlValue.int cutoff, SqlValue.int lim] }

/-- Statement of GET /stats/unique-users-24h (fixed 24 hour window). -/
def unique24hStmt (now : Int) : Stmt :=
  { sql := "SELECT COUNT(DISTINCT open_id) AS count FROM danmaku_messages WHERE "
      ++ buildTimestampOrderClause ++ " >= ?"
  , params := [SqlValue.int (now - 24 * 3600)] }

/-- Statement of GET /stats/history-count. -/
def historyCountStmt : Stmt :=
  { sql := "SELECT COUNT(*) AS count FROM danmaku_messages", params := [] }

/-- Statement of GET /stats/unique-users. -/
def uniqueUsersStmt : Stmt :=
  { sql := "SELECT COUNT(DISTINCT open_id) AS count FROM danmaku_messages"
  , params := [] }

/-- Statement of GET /tables. -/
def tablesStmt : Stmt :=
  { sql := "SELECT name, type FROM sqlite_master WHERE type IN (\x27table\x27,\x27view\x27) AND name NOT LIKE \x27sqlite_%\x27 ORDER BY name"
  , params := [] }

/-- A JSON response of an endpoint, by status class, with the payload the
client sees for that class. -/
inductive Resp (α : Type) where
  | ok (body : α)
  | badRequest (msg : String)
  | notFound (path : String)
  | serverError (msg : String)
deriving DecidableEq

/-- HTTP status of a response. -/
def statusOf {α : Type} : Resp α → Nat
  | Resp.ok _ => 200
  | Resp.badRequest _ => 400
  | Resp.notFound _ => 404
  | Resp.serverError _ => 500

/-- The all() helper: rejects with the DB-file-not-found message when the
resolved path does not exist, otherwise yields the query result.  Engine
failures on an existing store are outside this model. -/
def allE {α : Type} (dbExists : Bool) (dbPath : String) (v : α) :
    Except String α :=
  if dbExists then Except.ok v
  else Except.error ("DB file not found: " ++ dbPath)

/-- Map the all() outcome through the catch clause of a handler: a rejection
becomes a 500 response carrying the message. -/
def respOfExcept {α : Type} : Except String α → Resp α
  | Except.ok v => Resp.ok v
  | Except.error e => Resp.serverError e

/-- GET /tables: explicit existence check with a 404 carrying the path. -/
def tablesHandler (dbExists : Bool) (dbPath : String) : Resp Stmt :=
  if !dbExists then Resp.notFound dbPath
  else Resp.ok tablesStmt

/-- GET /table/:name: explicit existence check with a 404 carrying the
path; on success the endpoint runs the built statement. -/
def tableDumpHandler (dbExists : Bool) (dbPath : String) (name : String)
    (limitRaw offsetRaw : Option String) : Resp Stmt :=
  if !dbExists then Resp.notFound dbPath
  else Resp.ok (tableDumpStmt name limitRaw offsetRaw)

/-- GET /stats/history-count: no existence check of its own; a missing
store surfaces through the all() rejection as a 500. -/
def historyCountHandler (dbExists : Bool) (dbPath : String)
    (db : List DanmakuMessage) : Resp Nat :=
  respOfExcept (allE dbExists dbPath (historyCount db))

/-- GET /stats/unique-users. -/
def uniqueUsersHandler (dbExists : Bool) (dbPath : String)
    (db : List DanmakuMessage) : Resp Nat :=
  respOfExcept (allE dbExists dbPath (uniqueUsersCount db))

/-- GET /stats/unique-users-24h. -/
def unique24hHandler (dbExists : Bool) (dbPath : String)
    (db : List DanmakuMessage) (now : Int) : Resp Nat :=
  respOfExcept (allE dbExists dbPath (uniqueUsers24hCount db now))

/-- GET /stats/top-users. -/
def topUsersHandler (dbExists : Bool) (dbPath : String)
    (db : List DanmakuMessage) (now : Int)
    (limitRaw hoursRaw : Option String) : Resp (List TopUser) :=
  respOfExcept (allE dbExists dbPath (topUsersRows db now limitRaw hoursRaw))

/-- GET /messages/recent. -/
def recentHandler (dbExists : Bool) (dbPath : String)
    (db : List DanmakuMessage) (roomId limitRaw : Option String) :
    Resp (List DanmakuMessage) :=
  respOfExcept (allE dbExists dbPath (recentRows db roomId limitRaw))

/-- GET /messages/by-user: the 400 check runs before any query. -/
def byUserHandler (dbExists : Bool) (dbPath : String)
    (db : List DanmakuMessage) (openId uname limitRaw : Option String) :
    Resp (List DanmakuMessage) :=
  match byUserRows db openId uname limitRaw with
  | none => Resp.badRequest "Provide openId or uname query parameter."
  | some rows => respOfExcept (allE dbExists dbPath rows)

/-- GET /messages/search: coalesce the three keyword parameters, normalize,
and fail with a 400 before any query when no keyword remains. -/
def searchHandler (dbExists : Bool) (dbPath : String)
    (db : List DanmakuMessage)
    (keyword keywords q : Option (String ⊕ List String))
    (roomId limitRaw : Option String) : Resp (List DanmakuMessage) :=
  let kws := normalizeKeywords (coalesceKw keyword keywords q)
  if kws.isEmpty then
    Resp.badRequest "Provide at least one keyword via keyword, keywords, or q query param."
  else respOfExcept (allE dbExists dbPath (searchRowsOf db kws roomId limitRaw))

/-- A fragment of SQL text occurring inside a statement text. -/
def strContains (frag s : String) : Prop :=
  ∃ a b : List Char, s.data = a ++ frag.data ++ b

theorem dropLit_append (p s : List Char) : dropLit p (p ++ s) = some s := by
  induction p with
  | nil => rfl
  | cons a as ih => simp [dropLit, ih]

theorem scanIdentBody_escape (cs rest : List Char)
    (h : rest.head? ≠ some '"') :
    scanIdentBody (escapeChars cs ++ '"' :: rest) = some (cs, rest) := by
  induction cs with
  | nil =>
    cases rest with
    | nil => rfl
    | cons c t =>
      have hc : c ≠ '"' := by
        intro hc
        exact h (by simp [hc])
      simp [escapeChars, scanIdentBody, hc]
  | cons c cs ih =>
    by_cases hc : c = '"'
    · subst hc
      simp [escapeChars, scanIdentBody, ih]
    · simp [escapeChars, hc, scanIdentBody, ih]

/-- C1: for every table or view name given to the table-dump endpoint,
every embedded double quote is doubled before interpolation inside the
quoted identifier position, so the built statement lexes back to the fixed
SELECT template around the original name as one literal identifier; no part
of the name escapes the identifier position, hence it is never control SQL. -/
theorem table_name_always_one_literal_identifier
    (name : String) (limitRaw offsetRaw : Option String) :
    parseTableStmt (tableDumpSql name limitRaw offsetRaw) =
      some (name.data,
        (" LIMIT " ++ renderNum (parseIntJs (orDefault limitRaw "100")) ++
          " OFFSET " ++ renderNum (parseIntJs (orDefault offsetRaw "0"))).data) := by
  have hq : ("\" LIMIT " : String).data = '"' :: (" LIMIT " : String).data := rfl
  have hsp : (" LIMIT " : String).data = ' ' :: ("LIMIT " : String).data := rfl
  unfold parseTableStmt tableDumpSql escapeIdent
  rw [show ("SELECT * FROM \"" ++ ⟨escapeChars name.data⟩ ++ "\" LIMIT " ++
        renderNum (parseIntJs (orDefault limitRaw "100")) ++ " OFFSET " ++
        renderNum (parseIntJs (orDefault offsetRaw "0"))).data =
      ("SELECT * FROM \"" : String).data ++
        (escapeChars name.data ++ '"' ::
          (" LIMIT " ++ renderNum (parseIntJs (orDefault limitRaw "100")) ++
            " OFFSET " ++ renderNum (parseIntJs (orDefault offsetRaw "0"))).data) from by
    simp [String.data_append, hq, List.append_assoc]]
  rw [dropLit_append]
  exact scanIdentBody_escape _ _ (by simp [String.data_append, hsp])

/-- C2 counterexample: the table-dump endpoint concatenates the
user-supplied limit into the statement text (two requests differing only in
the limit input produce different SQL), while binding no parameters at all;
so not every user-supplied value stays out of the SQL string. -/
theorem table_dump_interpolates_limit_into_sql :
    (tableDumpStmt "t" (some "5") (some "0")).sql ≠
        (tableDumpStmt "t" (some "7") (some "0")).sql ∧
      (tableDumpStmt "t" (some "5") (some "0")).params = [] := by
  constructor
  · decide
  · rfl


/-- C2 amended: in the message-query statements every predicate value is
bound, the SQL text depending only on the shape of the request (presence of
the room filter, chosen user branch, number of keywords); the strings
interpolated into statement text are the escaped table identifier, the
fixed effective-time expression, and, in the table-dump endpoint only, the
integer-parse results of limit and offset. -/
theorem predicate_values_bound_except_table_dump_bounds :
    (∀ r l r2 l2 : Option String, (truthyVal r).isSome = (truthyVal r2).isSome →
        (recentStmt r l).sql = (recentStmt r2 l2).sql)
    ∧ (∀ o u l o2 u2 l2 : Option String,
        (truthyVal o).isSome = (truthyVal o2).isSome →
        (truthyVal u).isSome = (truthyVal u2).isSome →
        (byUserStmt o u l).map Stmt.sql = (byUserStmt o2 u2 l2).map Stmt.sql)
    ∧ (∀ raw raw2 room lim room2 lim2,
        (normalizeKeywords raw).length = (normalizeKeywords raw2).length →
        (truthyVal room).isSome = (truthyVal room2).isSome →
        (searchStmt raw room lim).map Stmt.sql =
          (searchStmt raw2 room2 lim2).map Stmt.sql)
    ∧ (∀ now l h now2 l2 h2,
        (topUsersStmt now l h).sql = (topUsersStmt now2 l2 h2).sql)
    ∧ (∀ now now2 : Int, (unique24hStmt now).sql = (unique24hStmt now2).sql)
    ∧ (∀ name l o, (tableDumpStmt name l o).params = [])
    ∧ (∀ n l o n2 l2 o2, escapeIdent n = escapeIdent n2 →
        parseIntJs (orDefault l "100") = parseIntJs (orDefault l2 "100") →
        parseIntJs (orDefault o "0") = parseIntJs (orDefault o2 "0") →
        (tableDumpStmt n l o).sql = (tableDumpStmt n2 l2 o2).sql)
    ∧ (∀ r l rv, truthyVal r = some rv →
        (recentStmt r l).params =
          [SqlValue.str rv, SqlValue.int (parseLimit (orDefault l "50") 50 200)])
    ∧ (∀ o u l ov, truthyVal o = some ov →
        (byUserStmt o u l).map Stmt.params =
          some [SqlValue.str ov,
            SqlValue.int (parseLimit (orDefault l "100") 100 500)])
    ∧ (∀ raw room lim st rv, searchStmt raw room lim = some st →
        truthyVal room = some rv →
        SqlValue.str rv ∈ st.params ∧
          ∀ k ∈ normalizeKeywords raw, SqlValue.str ("%" ++ k ++ "%") ∈ st.params) := by
  refine ⟨?_, ?_, ?_, ?_, ?_, ?_, ?_, ?_, ?_, ?_⟩
  · intro r l r2 l2 hshape
    rcases hr : truthyVal r with _ | rv <;> rcases hr2 : truthyVal r2 with _ | rv2 <;>
      simp [recentStmt, hr, hr2] <;> simp [hr, hr2] at hshape
  · intro o u l o2 u2 l2 ho hu
    rcases h1 : truthyVal o with _ | ov <;> rcases h2 : truthyVal o2 with _ | ov2
    · rcases h3 : truthyVal u with _ | uv <;> rcases h4 : truthyVal u2 with _ | uv2 <;>
        simp [h3, h4] at hu <;> simp [byUserStmt, h1, h2, h3, h4]
    · simp [h1, h2] at ho
    · simp [h1, h2] at ho
    · simp [byUserStmt, h1, h2]
  · intro raw raw2 room lim room2 lim2 hlen hshape
    have hcl : (normalizeKeywords raw).map (fun _ => "msg LIKE ? COLLATE NOCASE") =
        (normalizeKeywords raw2).map (fun _ => "msg LIKE ? COLLATE NOCASE") := by
      rw [List.map_const', List.map_const', hlen]
    have hemp : (normalizeKeywords raw).isEmpty = (normalizeKeywords raw2).isEmpty := by
      cases hA : normalizeKeywords raw <;> cases hB : normalizeKeywords raw2 <;>
        rw [hA, hB] at hlen <;> simp_all
    by_cases he : (normalizeKeywords raw).isEmpty
    · have he2 : (normalizeKeywords raw2).isEmpty := by rw [← hemp]; exact he
      simp [searchStmt, he, he2]
    · have he2 : ¬ (normalizeKeywords raw2).isEmpty := by rw [← hemp]; exact he
      rcases hr : truthyVal room with _ | rv <;> rcases hr2 : truthyVal room2 with _ | rv2 <;>
        simp [hr, hr2] at hshape <;> simp [searchStmt, he, he2, hr, hr2, hcl]
  · intro now l h now2 l2 h2
    rfl
  · intro now now2
    rfl
  · intro name l o
    rfl
  · intro n l o n2 l2 o2 hn hl ho
    simp [tableDumpStmt, tableDumpSql, hn, hl, ho]
  · intro r l rv hr
    simp [recentStmt, hr]
  · intro o u l ov ho
    simp [byUserStmt, ho]
  · intro raw room lim st rv hst hr
    by_cases he : (normalizeKeywords raw).isEmpty
    · simp [searchStmt, he] at hst
    · simp [searchStmt, he, hr] at hst
      constructor
      · rw [← hst]
        simp
      · intro k hk
        rw [← hst]
        simp [List.mem_append, List.mem_map]
        exact Or.inr ⟨k, hk, rfl⟩

theorem predicate_values_bound_witness :
    (recentStmt (some "roomA") none).sql = (recentStmt (some "roomB") (some "9")).sql ∧
      (recentStmt (some "roomA") (some "7")).params =
        [SqlValue.str "roomA", SqlValue.int 7] := by
  constructor
  · exact predicate_values_bound_except_table_dump_bounds.1
      (some "roomA") none (some "roomB") (some "9") (by decide)
  · have h := predicate_values_bound_except_table_dump_bounds.2.2.2.2.2.2.2.1
      (some "roomA") (some "7") "roomA" (by decide)
    rw [h]
    decide

/-- C3 counterexample: with a missing store file the history-count endpoint
answers with a 500 server error (the all() rejection caught by the handler),
not with a 404 response. -/
theorem history_count_missing_store_is_500 :
    statusOf (historyCountHandler false "/data/danmaku.db" []) = 500 ∧
      historyCountHandler false "/data/danmaku.db" [] =
        Resp.serverError ("DB file not found: " ++ "/data/danmaku.db") := by
  decide

/-- C3 amended: only the tables-listing and table-dump endpoints check the
store file and answer 404 with the attempted path; every other endpoint
surfaces a missing store file as a 500 server error whose message carries
the attempted path. -/
theorem missing_store_split_404_500 :
    (∀ path, tablesHandler false path = Resp.notFound path)
    ∧ (∀ path name l o, tableDumpHandler false path name l o = Resp.notFound path)
    ∧ (∀ path db, historyCountHandler false path db =
        Resp.serverError ("DB file not found: " ++ path))
    ∧ (∀ path db, uniqueUsersHandler false path db =
        Resp.serverError ("DB file not found: " ++ path))
    ∧ (∀ path db now, unique24hHandler false path db now =
        Resp.serverError ("DB file not found: " ++ path))
    ∧ (∀ path db now l h, topUsersHandler false path db now l h =
        Resp.serverError ("DB file not found: " ++ path))
    ∧ (∀ path db r l, recentHandler false path db r l =
        Resp.serverError ("DB file not found: " ++ path))
    ∧ (∀ path db o u l rows, byUserRows db o u l = some rows →
        byUserHandler false path db o u l =
          Resp.serverError ("DB file not found: " ++ path))
    ∧ (∀ path db k1 k2 k3 r l,
        (normalizeKeywords (coalesceKw k1 k2 k3)).isEmpty = false →
        searchHandler false path db k1 k2 k3 r l =
          Resp.serverError ("DB file not found: " ++ path))
    ∧ (∀ path, strContains path ("DB file not found: " ++ path)) := by
  refine ⟨?_, ?_, ?_, ?_, ?_, ?_, ?_, ?_, ?_, ?_⟩
  · intro path; rfl
  · intro path name l o; rfl
  · intro path db; rfl
  · intro path db; rfl
  · intro path db now; rfl
  · intro path db now l h; rfl
  · intro path db r l; rfl
  · intro path db o u l rows hrows
    simp [byUserHandler, hrows, respOfExcept, allE]
  · intro path db k1 k2 k3 r l hne
    simp [searchHandler, hne, respOfExcept, allE]
  · intro path
    exact ⟨("DB file not found: " : String).data, [], by simp [String.data_append]⟩

theorem missing_store_split_witness :
    byUserHandler false "/data/danmaku.db" [] (some "o1") none none =
      Resp.serverError ("DB file not found: " ++ "/data/danmaku.db") :=
  missing_store_split_404_500.2.2.2.2.2.2.2.1 "/data/danmaku.db" [] (some "o1")
    none none [] (by decide)

theorem parseLimit_le_max (raw : String) (fb mx : Int) (hfm : fb ≤ mx) :
    parseLimit raw fb mx ≤ mx := by
  unfold parseLimit
  cases parseIntJs raw with
  | none => exact hfm
  | some n =>
    by_cases h : n ≤ 0
    · simp [h, hfm]
    · simp [h, min_le_right]

theorem parseLimit_spec (raw : Option String) (ds : String) (fb mx : Int)
    (hds : parseIntJs ds = some fb) (hfb : 0 < fb) (hfm : fb ≤ mx) :
    (truthyVal raw = none → parseLimit (orDefault raw ds) fb mx = fb)
    ∧ (∀ s, truthyVal raw = some s → parseIntJs s = none →
        parseLimit (orDefault raw ds) fb mx = fb)
    ∧ (∀ s n, truthyVal raw = some s → parseIntJs s = some n → n ≤ 0 →
        parseLimit (orDefault raw ds) fb mx = fb)
    ∧ (∀ s n, truthyVal raw = some s → parseIntJs s = some n → 0 < n →
        parseLimit (orDefault raw ds) fb mx = min n mx)
    ∧ parseLimit (orDefault raw ds) fb mx ≤ mx := by
  refine ⟨?_, ?_, ?_, ?_, parseLimit_le_max _ _ _ hfm⟩
  · intro h
    simp [orDefault, h, parseLimit, hds, not_le.mpr hfb, min_eq_left hfm]
  · intro s hs hnan
    simp [orDefault, hs, parseLimit, hnan]
  · intro s n hs hn hle
    simp [orDefault, hs, parseLimit, hn, hle]
  · intro s n hs hn hpos
    simp [orDefault, hs, parseLimit, hn, not_le.mpr hpos]

/-- C4: limit normalization on the recent-messages, by-user and top-users
endpoints: an absent, non-numeric (parseInt NaN) or non-positive input falls
back to 50, 100 and 10 respectively; a positive input is clamped to 200, 500
and 100 respectively; and the returned row list never exceeds that maximum. -/
theorem limit_fallback_clamp_and_bound :
    (∀ raw : Option String,
      (truthyVal raw = none →
        parseLimit (orDefault raw "50") 50 200 = 50
        ∧ parseLimit (orDefault raw "100") 100 500 = 100
        ∧ parseLimit (orDefault raw "10") 10 100 = 10)
      ∧ (∀ s, truthyVal raw = some s → parseIntJs s = none →
        parseLimit (orDefault raw "50") 50 200 = 50
        ∧ parseLimit (orDefault raw "100") 100 500 = 100
        ∧ parseLimit (orDefault raw "10") 10 100 = 10)
      ∧ (∀ s n, truthyVal raw = some s → parseIntJs s = some n → n ≤ 0 →
        parseLimit (orDefault raw "50") 50 200 = 50
        ∧ parseLimit (orDefault raw "100") 100 500 = 100
        ∧ parseLimit (orDefault raw "10") 10 100 = 10)
      ∧ (∀ s n, truthyVal raw = some s → parseIntJs s = some n → 0 < n →
        parseLimit (orDefault raw "50") 50 200 = min n 200
        ∧ parseLimit (orDefault raw "100") 100 500 = min n 500
        ∧ parseLimit (orDefault raw "10") 10 100 = min n 100))
    ∧ (∀ db r raw, (recentRows db r raw).length ≤ 200)
    ∧ (∀ db o u raw rows, byUserRows db o u raw = some rows → rows.length ≤ 500)
    ∧ (∀ db now raw h, (topUsersRows db now raw h).length ≤ 100) := by
  have h50 := fun raw =>
    parseLimit_spec raw "50" 50 200 (by decide) (by decide) (by decide)
  have h100 := fun raw =>
    parseLimit_spec raw "100" 100 500 (by decide) (by decide) (by decide)
  have h10 := fun raw =>
    parseLimit_spec raw "10" 10 100 (by decide) (by decide) (by decide)
  refine ⟨?_, ?_, ?_, ?_⟩
  · intro raw
    refine ⟨fun h => ⟨(h50 raw).1 h, (h100 raw).1 h, (h10 raw).1 h⟩,
      fun s hs hn => ⟨(h50 raw).2.1 s hs hn, (h100 raw).2.1 s hs hn,
        (h10 raw).2.1 s hs hn⟩,
      fun s n hs hn hle => ⟨(h50 raw).2.2.1 s n hs hn hle,
        (h100 raw).2.2.1 s n hs hn hle, (h10 raw).2.2.1 s n hs hn hle⟩,
      fun s n hs hn hpos => ⟨(h50 raw).2.2.2.1 s n hs hn hpos,
        (h100 raw).2.2.2.1 s n hs hn hpos, (h10 raw).2.2.2.1 s n hs hn hpos⟩⟩
  · intro db r raw
    have hle : parseLimit (orDefault raw "50") 50 200 ≤ 200 := (h50 raw).2.2.2.2
    calc (recentRows db r raw).length
        ≤ (parseLimit (orDefault raw "50") 50 200).toNat := List.length_take_le _ _
      _ ≤ (200 : Int).toNat := Int.toNat_le_toNat hle
      _ = 200 := rfl
  · intro db o u raw rows hrows
    have hle : parseLimit (orDefault raw "100") 100 500 ≤ 500 := (h100 raw).2.2.2.2
    unfold byUserRows at hrows
    cases hp : byUserPred o u with
    | none => rw [hp] at hrows; cases hrows
    | some p =>
      rw [hp] at hrows
      simp only [Option.map_some', Option.some.injEq] at hrows
      rw [← hrows]
      calc ((sortDescBy effectiveTime (db.filter p)).take
            (parseLimit (orDefault raw "100") 100 500).toNat).length
          ≤ (parseLimit (orDefault raw "100") 100 500).toNat := List.length_take_le _ _
        _ ≤ (500 : Int).toNat := Int.toNat_le_toNat hle
        _ = 500 := rfl
  · intro db now raw h
    have hle : parseLimit (orDefault raw "10") 10 100 ≤ 100 := (h10 raw).2.2.2.2
    calc (topUsersRows db now raw h).length
        ≤ (parseLimit (orDefault raw "10") 10 100).toNat := List.length_take_le _ _
      _ ≤ (100 : Int).toNat := Int.toNat_le_toNat hle
      _ = 100 := rfl

theorem limit_fallback_clamp_witness :
    parseLimit (orDefault (some "999") "50") 50 200 = min 999 200 ∧
      parseLimit (orDefault (some "abc") "10") 10 100 = 10 := by
  constructor
  · exact ((limit_fallback_clamp_and_bound.1 (some "999")).2.2.2
      "999" 999 (by decide) (by decide) (by decide)).1
  · exact ((limit_fallback_clamp_and_bound.1 (some "abc")).2.1
      "abc" (by decide) (by decide)).2.2

theorem likeMatch_nil (s : List Char) : likeMatch [] s = s.isEmpty := rfl

theorem likeMatch_pct (ps s : List Char) :
    likeMatch ('%' :: ps) s = true ↔ ∃ i, likeMatch ps (s.drop i) = true := by
  constructor
  · intro h
    simp only [likeMatch, List.any_eq_true, List.mem_range] at h
    obtain ⟨i, _, hi⟩ := h
    exact ⟨i, hi⟩
  · rintro ⟨i, hi⟩
    simp only [likeMatch, List.any_eq_true, List.mem_range]
    by_cases hlen : i ≤ s.length
    · exact ⟨i, Nat.lt_succ_of_le hlen, hi⟩
    · refine ⟨s.length, Nat.lt_succ_self _, ?_⟩
      rw [List.drop_length]
      rw [List.drop_eq_nil_of_le (le_of_not_le hlen)] at hi
      exact hi

theorem likeMatch_pct_nil (s : List Char) : likeMatch ['%'] s = true := by
  rw [likeMatch_pct]
  exact ⟨s.length, by rw [List.drop_length]; rfl⟩

theorem likeMatch_lit_pct (k : List Char) (hk : noWild k = true) :
    ∀ s : List Char, likeMatch (k ++ ['%']) s = true ↔
      ∃ a b, s = a ++ b ∧ lowerL a = lowerL k := by
  induction k with
  | nil =>
    intro s
    simp only [List.nil_append, likeMatch_pct_nil, true_iff]
    exact ⟨[], s, rfl, rfl⟩
  | cons c k2 ih =>
    intro s
    simp only [noWild, List.all_cons, Bool.and_eq_true, bne_iff_ne, ne_eq] at hk
    have hc1 : c ≠ '%' := hk.1.1
    have hc2 : c ≠ '_' := hk.1.2
    have hk2 : noWild k2 = true := by
      simp only [noWild]
      exact hk.2
    cases s with
    | nil =>
      constructor
      · intro h
        rw [List.cons_append, likeMatch] at h
        · exact absurd h (by simp)
        · exact hc1
        · exact hc2
      · rintro ⟨a, b, hab, hla⟩
        cases a with
        | nil =>
          simp only [lowerL, List.map_nil, List.map_cons] at hla
          cases hla
        | cons x xs => simp at hab
    | cons d t =>
      constructor
      · intro h
        rw [List.cons_append, likeMatch] at h
        · simp only [Bool.and_eq_true] at h
          obtain ⟨a, b, hab, hla⟩ := (ih hk2 t).mp h.2
          refine ⟨d :: a, b, by rw [hab, List.cons_append], ?_⟩
          simp only [lowerL, List.map_cons]
          have h1 := h.1
          rw [eqCI] at h1
          have hcd : toLowerA c = toLowerA d := eq_of_beq h1
          simp only [lowerL] at hla
          rw [hla, hcd]
        · exact hc1
        · exact hc2
      · rintro ⟨a, b, hab, hla⟩
        cases a with
        | nil =>
          simp only [lowerL, List.map_nil, List.map_cons] at hla
          cases hla
        | cons x xs =>
          rw [List.cons_append, List.cons.injEq] at hab
          obtain ⟨hdx, hts⟩ := hab
          simp only [lowerL, List.map_cons, List.cons.injEq] at hla
          obtain ⟨hxc, hxs⟩ := hla
          rw [List.cons_append, likeMatch]
          · simp only [Bool.and_eq_true]
            constructor
            · rw [eqCI, hdx, hxc]
              exact beq_self_eq_true _
            · exact (ih hk2 t).mpr ⟨xs, b, hts, hxs⟩
          · exact hc1
          · exact hc2

theorem likeMatch_substrCI (k s : List Char) (hk : noWild k = true) :
    likeMatch (likePat k) s = true ↔ SubstrCI k s := by
  rw [likePat, likeMatch_pct]
  constructor
  · rintro ⟨i, hi⟩
    obtain ⟨a, b, hab, hla⟩ := (likeMatch_lit_pct k hk _).mp hi
    have hs : s = s.take i ++ (a ++ b) := by
      rw [← hab, List.take_append_drop]
    refine ⟨lowerL (s.take i), lowerL b, ?_⟩
    conv_lhs => rw [hs]
    simp only [lowerL, List.map_append] at hla ⊢
    rw [← hla, List.append_assoc]
  · rintro ⟨x, y, hxy⟩
    simp only [lowerL] at hxy
    have hdrop : List.map toLowerA (s.drop x.length) = List.map toLowerA k ++ y := by
      rw [List.map_drop, hxy, List.append_assoc, List.drop_left]
    refine ⟨x.length, (likeMatch_lit_pct k hk _).mpr
      ⟨(s.drop x.length).take k.length, (s.drop x.length).drop k.length,
        (List.take_append_drop _ _).symm, ?_⟩⟩
    have hlen : k.length = (List.map toLowerA k).length := (List.length_map _ _).symm
    simp only [lowerL]
    rw [List.map_take, hdrop, hlen, List.take_left]

theorem startsList_iff (n h : List Char) :
    startsList n h = true ↔ ∃ t, h = n ++ t := by
  induction n generalizing h with
  | nil =>
    simp [startsList]
  | cons a as ih =>
    cases h with
    | nil => simp [startsList]
    | cons b bs =>
      simp only [startsList, Bool.and_eq_true, beq_iff_eq, ih, List.cons_append,
        List.cons.injEq]
      constructor
      · rintro ⟨hab, t, ht⟩
        exact ⟨t, hab.symm, ht⟩
      · rintro ⟨t, hab, ht⟩
        exact ⟨hab.symm, t, ht⟩

theorem occursIn_iff (n h : List Char) :
    occursIn n h = true ↔ ∃ a b, h = a ++ n ++ b := by
  induction h with
  | nil =>
    rw [occursIn, startsList_iff]
    constructor
    · rintro ⟨t, ht⟩
      exact ⟨[], t, ht⟩
    · rintro ⟨a, b, hab⟩
      cases a with
      | nil => exact ⟨b, by simpa using hab⟩
      | cons x xs => cases hab
  | cons c t ih =>
    rw [occursIn, Bool.or_eq_true, startsList_iff, ih]
    constructor
    · rintro (⟨u, hu⟩ | ⟨a, b, hab⟩)
      · exact ⟨[], u, by simpa using hu⟩
      · exact ⟨c :: a, b, by simp [hab]⟩
    · rintro ⟨a, b, hab⟩
      cases a with
      | nil =>
        exact Or.inl ⟨b, by simpa using hab⟩
      | cons x xs =>
        simp only [List.cons_append, List.cons.injEq] at hab
        exact Or.inr ⟨xs, b, hab.2⟩

theorem substrCI_iff_occursIn (k s : List Char) :
    SubstrCI k s ↔ occursIn (lowerL k) (lowerL s) = true := by
  rw [SubstrCI, occursIn_iff]

theorem mem_insertDescBy {α : Type} (key : α → Int) (x z : α) (l : List α) :
    z ∈ insertDescBy key x l ↔ z = x ∨ z ∈ l := by
  induction l with
  | nil => simp [insertDescBy]
  | cons y ys ih =>
    rw [insertDescBy]
    by_cases h : key y ≤ key x
    · simp [h]
    · simp only [h, if_false, List.mem_cons, ih]
      tauto

theorem mem_sortDescBy {α : Type} (key : α → Int) (z : α) (l : List α) :
    z ∈ sortDescBy key l ↔ z ∈ l := by
  induction l with
  | nil => simp [sortDescBy]
  | cons y ys ih =>
    rw [sortDescBy, mem_insertDescBy]
    simp [ih]

theorem pairwise_insertDescBy {α : Type} (key : α → Int) (x : α) (l : List α)
    (h : l.Pairwise (fun a b => key b ≤ key a)) :
    (insertDescBy key x l).Pairwise (fun a b => key b ≤ key a) := by
  induction l with
  | nil => simp [insertDescBy]
  | cons y ys ih =>
    rw [insertDescBy]
    rw [List.pairwise_cons] at h
    by_cases hxy : key y ≤ key x
    · rw [if_pos hxy]
      refine List.Pairwise.cons ?_ (List.Pairwise.cons h.1 h.2)
      intro z hz
      rcases List.mem_cons.mp hz with rfl | hz2
      · exact hxy
      · exact le_trans (h.1 z hz2) hxy
    · rw [if_neg hxy]
      refine List.Pairwise.cons ?_ (ih h.2)
      intro z hz
      rcases (mem_insertDescBy key x z ys).mp hz with rfl | hz2
      · exact le_of_lt (lt_of_not_le hxy)
      · exact h.1 z hz2

theorem pairwise_sortDescBy {α : Type} (key : α → Int) (l : List α) :
    (sortDescBy key l).Pairwise (fun a b => key b ≤ key a) := by
  induction l with
  | nil => simp [sortDescBy]
  | cons y ys ih => exact pairwise_insertDescBy key y _ ih

theorem pairwise_take_sortDescBy {α : Type} (key : α → Int) (l : List α) (n : Nat) :
    ((sortDescBy key l).take n).Pairwise (fun a b => key b ≤ key a) :=
  (pairwise_sortDescBy key l).sublist (List.take_sublist n _)

theorem mem_take_sortDescBy {α : Type} (key : α → Int) (z : α) (l : List α) (n : Nat)
    (h : z ∈ (sortDescBy key l).take n) : z ∈ l :=
  (mem_sortDescBy key z l).mp (List.mem_of_mem_take h)

/-- C5 counterexample: with only uname supplied, an uname containing the
LIKE underscore wildcard matches a row whose display name is not a
case-insensitive superstring of it, so the uname branch is not a plain
case-insensitive substring match. -/
theorem by_user_uname_wildcard_matches_without_substring :
    byUserRows [⟨1, "o1", "abc", "hello", "r1", some 100, 90⟩]
        none (some "a_c") none =
      some [⟨1, "o1", "abc", "hello", "r1", some 100, 90⟩]
    ∧ ¬ SubstrCI ("a_c".data) ("abc".data) := by
  constructor
  · decide
  · rw [substrCI_iff_occursIn]
    decide

/-- C5 amended: a truthy openId always selects the exact open_id equality
branch and uname is ignored; with openId falsy and uname truthy the rows
are filtered by the LIKE pattern built around uname, which coincides with a
case-insensitive substring match exactly for unames free of the percent and
underscore wildcards; with both falsy the endpoint answers 400 before any
query. -/
theorem by_user_branch_selection :
    (∀ (db : List DanmakuMessage) (o u u2 l : Option String),
        truthyVal o ≠ none → byUserRows db o u l = byUserRows db o u2 l)
    ∧ (∀ (db : List DanmakuMessage) (o u l : Option String) (ov : String),
        truthyVal o = some ov →
        byUserRows db o u l = some ((sortDescBy effectiveTime
          (db.filter (fun m => m.open_id == ov))).take
            (parseLimit (orDefault l "100") 100 500).toNat))
    ∧ (∀ (db : List DanmakuMessage) (o u l : Option String) (uv : String),
        truthyVal o = none → truthyVal u = some uv →
        byUserRows db o u l = some ((sortDescBy effectiveTime
          (db.filter (fun m => likeMatch (likePat uv.data) m.uname.data))).take
            (parseLimit (orDefault l "100") 100 500).toNat))
    ∧ (∀ (db : List DanmakuMessage) (o u l : Option String),
        truthyVal o = none → truthyVal u = none →
        byUserRows db o u l = none
        ∧ ∀ ex p, byUserHandler ex p db o u l =
            Resp.badRequest "Provide openId or uname query parameter.")
    ∧ (∀ uv s : String, noWild uv.data = true →
        (likeMatch (likePat uv.data) s.data = true ↔ SubstrCI uv.data s.data)) := by
  refine ⟨?_, ?_, ?_, ?_, ?_⟩
  · intro db o u u2 l ho
    cases h : truthyVal o with
    | none => exact absurd h ho
    | some ov => simp [byUserRows, byUserPred, h]
  · intro db o u l ov ho
    simp [byUserRows, byUserPred, ho]
  · intro db o u l uv ho hu
    simp [byUserRows, byUserPred, ho, hu]
  · intro db o u l ho hu
    refine ⟨by simp [byUserRows, byUserPred, ho, hu], ?_⟩
    intro ex p
    simp [byUserHandler, byUserRows, byUserPred, ho, hu]
  · intro uv s h
    exact likeMatch_substrCI _ _ h

theorem by_user_branch_selection_witness :
    byUserRows [] (some "oX") (some "ignored") none =
      byUserRows [] (some "oX") none none :=
  by_user_branch_selection.1 [] (some "oX") (some "ignored") none none (by decide)

/-- C6 counterexample: a keyword containing the LIKE underscore wildcard
makes keyword search return a row whose msg does not contain the keyword as
a case-insensitive substring, so the returned set is not exactly the
substring matches. -/
theorem search_keyword_wildcard_matches_without_substring :
    searchRowsOf [⟨2, "o2", "bob", "qvw", "r1", some 100, 90⟩]
        ["q_w"] none none =
      [⟨2, "o2", "bob", "qvw", "r1", some 100, 90⟩]
    ∧ ¬ SubstrCI ("q_w".data) ("qvw".data) := by
  constructor
  · decide
  · rw [substrCI_iff_occursIn]
    decide

/-- C6 amended: keyword search filters to exactly the rows whose msg
matches at least one keyword LIKE pattern (OR across keywords),
AND-restricted by room_id equality when roomId is truthy; the per-keyword
LIKE pattern coincides with case-insensitive substring containment exactly
for keywords free of the percent and underscore wildcards; the filtered set
is then ordered and truncated to the limit. -/
theorem search_filter_disjunction_conjunction :
    (∀ (kws : List String) (room : Option String) (m : DanmakuMessage),
        searchPred kws room m = true ↔
          (∃ k ∈ kws, likeMatch (likePat k.data) m.msg.data = true)
            ∧ ∀ rv, truthyVal room = some rv → m.room_id = rv)
    ∧ (∀ (db : List DanmakuMessage) (kws : List String) (room : Option String)
          (m : DanmakuMessage),
        m ∈ db.filter (searchPred kws room) ↔
          m ∈ db ∧ searchPred kws room m = true)
    ∧ (∀ (db : List DanmakuMessage) (kws : List String)
          (room lim : Option String) (m : DanmakuMessage),
        m ∈ searchRowsOf db kws room lim →
          m ∈ db ∧ searchPred kws room m = true)
    ∧ (∀ k s : String, noWild k.data = true →
        (likeMatch (likePat k.data) s.data = true ↔ SubstrCI k.data s.data)) := by
  refine ⟨?_, ?_, ?_, ?_⟩
  · intro kws room m
    rw [searchPred, Bool.and_eq_true, List.any_eq_true]
    cases hr : truthyVal room with
    | none => simp
    | some rv => simp [beq_iff_eq]
  · intro db kws room m
    rw [List.mem_filter]
  · intro db kws room lim m hm
    have hmem : m ∈ db.filter (searchPred kws room) :=
      mem_take_sortDescBy effectiveTime m _ _ hm
    exact List.mem_filter.mp hmem
  · intro k s h
    exact likeMatch_substrCI _ _ h

theorem search_filter_witness :
    searchPred ["foo"] none
        ⟨3, "o3", "ann", "xxFOOyy", "r2", some 5, 4⟩ = true :=
  (search_filter_disjunction_conjunction.1 ["foo"] none
      ⟨3, "o3", "ann", "xxFOOyy", "r2", some 5, 4⟩).mpr
    ⟨⟨"foo", by decide, by decide⟩, fun rv hrv => by cases hrv⟩

/-- C10: the by-user display-name branch and keyword search embed the user
text in a LIKE pattern without escaping the wildcards, so inputs containing
underscore or percent match rows whose uname or msg does not contain the
supplied text as a (case-insensitive) substring. -/
theorem like_wildcards_not_escaped :
    (byUserRows [⟨4, "o4", "xyz", "hi", "r1", some 100, 90⟩]
          none (some "x_z") none =
        some [⟨4, "o4", "xyz", "hi", "r1", some 100, 90⟩]
      ∧ ¬ SubstrCI ("x_z".data) ("xyz".data))
    ∧ (normalizeKeywords (some (Sum.inl "q%t")) = ["q%t"]
      ∧ searchRowsOf [⟨5, "o5", "cat", "qZZt", "r1", some 100, 90⟩]
            ["q%t"] none none =
          [⟨5, "o5", "cat", "qZZt", "r1", some 100, 90⟩]
      ∧ ¬ SubstrCI ("q%t".data) ("qZZt".data)) := by
  refine ⟨⟨by decide, ?_⟩, by decide, by decide, ?_⟩
  · rw [substrCI_iff_occursIn]
    decide
  · rw [substrCI_iff_occursIn]
    decide

theorem head?_dropWhile_false (p : Char → Bool) (l : List Char) (c : Char)
    (h : (l.dropWhile p).head? = some c) : p c = false := by
  induction l with
  | nil => cases h
  | cons x xs ih =>
    by_cases hp : p x
    · rw [List.dropWhile_cons, if_pos hp] at h
      exact ih h
    · rw [List.dropWhile_cons, if_neg hp] at h
      cases h
      exact Bool.of_not_eq_true hp

theorem trimJs_data_decomp (s : String) :
    ∃ t, s.data.dropWhile isWsChar = (trimJs s).data ++ t := by
  have hsuf : ((s.data.dropWhile isWsChar).reverse.dropWhile isWsChar) <:+
      (s.data.dropWhile isWsChar).reverse := List.dropWhile_suffix _
  obtain ⟨t, ht⟩ := hsuf
  refine ⟨t.reverse, ?_⟩
  have := congrArg List.reverse ht
  rw [List.reverse_append, List.reverse_reverse] at this
  rw [← this]
  rfl

theorem trimJs_head_not_ws (s : String) (c : Char)
    (h : (trimJs s).data.head? = some c) : isWsChar c = false := by
  obtain ⟨t, hfront⟩ := trimJs_data_decomp s
  apply head?_dropWhile_false isWsChar s.data c
  rw [hfront]
  cases htd : (trimJs s).data with
  | nil => rw [htd] at h; cases h
  | cons x xs =>
    rw [htd] at h
    cases h
    rfl

theorem trimJs_getLast_not_ws (s : String) (c : Char)
    (h : (trimJs s).data.getLast? = some c) : isWsChar c = false := by
  have hdata : (trimJs s).data =
      ((s.data.dropWhile isWsChar).reverse.dropWhile isWsChar).reverse := rfl
  rw [hdata, List.getLast?_reverse] at h
  exact head?_dropWhile_false isWsChar _ c h

/-- C7: the keyword normalizer accepts a single comma-separated string or a
pre-split sequence (both routes agree), trims every entry and drops the
empties (members are exactly the non-empty trims, free of edge whitespace);
when nothing remains the search endpoint answers 400 without touching the
store (for any store state). -/
theorem keyword_normalizer_spec :
    (∀ s : String, normalizeKeywords (some (Sum.inl s)) =
        normalizeKeywords (some (Sum.inr (splitComma s))))
    ∧ (∀ raw k, k ∈ normalizeKeywords raw ↔
        k ≠ "" ∧ ∃ e ∈ keywordsOf raw, trimJs e = k)
    ∧ (∀ raw k, k ∈ normalizeKeywords raw →
        (∀ c, k.data.head? = some c → isWsChar c = false)
        ∧ (∀ c, k.data.getLast? = some c → isWsChar c = false))
    ∧ (∀ ex p db k1 k2 k3 r l,
        normalizeKeywords (coalesceKw k1 k2 k3) = [] →
        searchHandler ex p db k1 k2 k3 r l =
          Resp.badRequest
            "Provide at least one keyword via keyword, keywords, or q query param.") := by
  refine ⟨?_, ?_, ?_, ?_⟩
  · intro s
    rfl
  · intro raw k
    simp only [normalizeKeywords, List.mem_filter, List.mem_map,
      Bool.not_eq_true']
    rw [← Bool.not_eq_true k.isEmpty]
    simp only [String.isEmpty_iff]
    constructor
    · rintro ⟨⟨e, he, hek⟩, hne⟩
      exact ⟨hne, e, he, hek⟩
    · rintro ⟨hne, e, he, hek⟩
      exact ⟨⟨e, he, hek⟩, hne⟩
  · intro raw k hk
    simp only [normalizeKeywords, List.mem_filter, List.mem_map] at hk
    obtain ⟨⟨e, _, he⟩, _⟩ := hk
    subst he
    exact ⟨trimJs_head_not_ws e, trimJs_getLast_not_ws e⟩
  · intro ex p db k1 k2 k3 r l h
    simp [searchHandler, h]

theorem keyword_normalizer_witness :
    searchHandler true "/data/danmaku.db" [] none none none none none =
      Resp.badRequest
        "Provide at least one keyword via keyword, keywords, or q query param." :=
  keyword_normalizer_spec.2.2.2 true "/data/danmaku.db" [] none none none
    none none (by decide)


theorem strAppend_assoc (a b c : String) : a ++ b ++ c = a ++ (b ++ c) := by
  apply String.ext
  simp [String.data_append, List.append_assoc]

theorem strAppend_empty (s : String) : s ++ "" = s := by
  apply String.ext
  simp [String.data_append]

theorem strContains_intro (pre frag post s : String)
    (h : s = pre ++ (frag ++ post)) : strContains frag s := by
  refine ⟨pre.data, post.data, ?_⟩
  rw [h]
  simp [String.data_append, List.append_assoc]

theorem strContains_iff_occursIn (frag s : String) :
    strContains frag s ↔ occursIn frag.data s.data = true := by
  rw [strContains]
  exact (occursIn_iff _ _).symm

theorem strContains_append_left (x y frag : String)
    (h : strContains frag y) : strContains frag (x ++ y) := by
  obtain ⟨a, b, hab⟩ := h
  exact ⟨x.data ++ a, b, by simp [String.data_append, hab, List.append_assoc]⟩

theorem strContains_suffix5 (frag x y o t d : String)
    (h : strContains frag (o ++ (t ++ d))) :
    strContains frag (x ++ y ++ o ++ t ++ d) := by
  rw [strAppend_assoc (x ++ y ++ o) t d, strAppend_assoc (x ++ y) o (t ++ d)]
  exact strContains_append_left _ _ _ h

theorem textLe_total (a : List Char) : ∀ b, textLe a b = false → textLe b a = true := by
  induction a with
  | nil =>
    intro b h
    simp [textLe] at h
  | cons x xs ih =>
    intro b h
    cases b with
    | nil => rfl
    | cons y ys =>
      simp only [textLe, Bool.or_eq_false_iff, Bool.and_eq_false_iff,
        decide_eq_false_iff_not, beq_eq_false_iff_ne, ne_eq] at h
      simp only [textLe, Bool.or_eq_true, Bool.and_eq_true, decide_eq_true_eq,
        beq_iff_eq]
      rcases h with ⟨hlt, heq | hle⟩
      · exact Or.inl (by omega)
      · by_cases hxy : x.toNat = y.toNat
        · exact Or.inr ⟨hxy.symm, ih ys hle⟩
        · exact Or.inl (by omega)

theorem textLe_trans (a : List Char) :
    ∀ b c, textLe a b = true → textLe b c = true → textLe a c = true := by
  induction a with
  | nil =>
    intro b c _ _
    rfl
  | cons x xs ih =>
    intro b c hab hbc
    cases b with
    | nil => simp [textLe] at hab
    | cons y ys =>
      cases c with
      | nil => simp [textLe] at hbc
      | cons z zs =>
        simp only [textLe, Bool.or_eq_true, Bool.and_eq_true, decide_eq_true_eq,
          beq_iff_eq] at hab hbc ⊢
        rcases hab with hlt1 | ⟨heq1, hle1⟩
        · rcases hbc with hlt2 | ⟨heq2, _⟩
          · exact Or.inl (by omega)
          · exact Or.inl (by omega)
        · rcases hbc with hlt2 | ⟨heq2, hle2⟩
          · exact Or.inl (by omega)
          · exact Or.inr ⟨by omega, ih ys zs hle1 hle2⟩

theorem sqlValLe_total (a b : SqliteVal) (h : sqlValLe a b = false) :
    sqlValLe b a = true := by
  cases a with
  | int na =>
    cases b with
    | int nb =>
      simp only [sqlValLe, decide_eq_false_iff_not, not_le] at h
      simp only [sqlValLe, decide_eq_true_eq]
      omega
    | text tb => simp [sqlValLe] at h
  | text ta =>
    cases b with
    | int nb => rfl
    | text tb =>
      simp only [sqlValLe] at h ⊢
      exact textLe_total ta tb h

theorem sqlValLe_trans (a b c : SqliteVal) (hab : sqlValLe a b = true)
    (hbc : sqlValLe b c = true) : sqlValLe a c = true := by
  cases a with
  | int na =>
    cases c with
    | text tc => rfl
    | int nc =>
      cases b with
      | int nb =>
        simp only [sqlValLe, decide_eq_true_eq] at hab hbc ⊢
        omega
      | text tb => simp [sqlValLe] at hbc
  | text ta =>
    cases b with
    | int nb => simp [sqlValLe] at hab
    | text tb =>
      cases c with
      | int nc => simp [sqlValLe] at hbc
      | text tc =>
        simp only [sqlValLe] at hab hbc ⊢
        exact textLe_trans ta tb tc hab hbc

theorem mem_insertDescBySql {α : Type} (key : α → SqliteVal) (x z : α)
    (l : List α) : z ∈ insertDescBySql key x l ↔ z = x ∨ z ∈ l := by
  induction l with
  | nil => simp [insertDescBySql]
  | cons y ys ih =>
    rw [insertDescBySql]
    by_cases h : sqlValLe (key y) (key x) = true
    · simp [h]
    · have hf : sqlValLe (key y) (key x) = false := Bool.of_not_eq_true h
      simp only [hf, Bool.false_eq_true, if_false, List.mem_cons, ih]
      tauto

theorem mem_sortDescBySql {α : Type} (key : α → SqliteVal) (z : α)
    (l : List α) : z ∈ sortDescBySql key l ↔ z ∈ l := by
  induction l with
  | nil => simp [sortDescBySql]
  | cons y ys ih =>
    rw [sortDescBySql, mem_insertDescBySql]
    simp [ih]

theorem pairwise_insertDescBySql {α : Type} (key : α → SqliteVal) (x : α)
    (l : List α) (h : l.Pairwise (fun a b => sqlValLe (key b) (key a) = true)) :
    (insertDescBySql key x l).Pairwise
      (fun a b => sqlValLe (key b) (key a) = true) := by
  induction l with
  | nil => simp [insertDescBySql]
  | cons y ys ih =>
    rw [insertDescBySql]
    rw [List.pairwise_cons] at h
    by_cases hxy : sqlValLe (key y) (key x) = true
    · rw [if_pos hxy]
      refine List.Pairwise.cons ?_ (List.Pairwise.cons h.1 h.2)
      intro z hz
      rcases List.mem_cons.mp hz with rfl | hz2
      · exact hxy
      · exact sqlValLe_trans _ _ _ (h.1 z hz2) hxy
    · rw [if_neg hxy]
      refine List.Pairwise.cons ?_ (ih h.2)
      intro z hz
      rcases (mem_insertDescBySql key x z ys).mp hz with rfl | hz2
      · exact sqlValLe_total _ _ (Bool.of_not_eq_true hxy)
      · exact h.1 z hz2

theorem pairwise_sortDescBySql {α : Type} (key : α → SqliteVal) (l : List α) :
    (sortDescBySql key l).Pairwise (fun a b => sqlValLe (key b) (key a) = true) := by
  induction l with
  | nil => simp [sortDescBySql]
  | cons y ys ih => exact pairwise_insertDescBySql key y _ ih

theorem pairwise_take_sortDescBySql {α : Type} (key : α → SqliteVal)
    (l : List α) (n : Nat) :
    ((sortDescBySql key l).take n).Pairwise
      (fun a b => sqlValLe (key b) (key a) = true) :=
  (pairwise_sortDescBySql key l).sublist (List.take_sublist n _)

theorem mem_take_sortDescBySql {α : Type} (key : α → SqliteVal) (z : α)
    (l : List α) (n : Nat) (h : z ∈ (sortDescBySql key l).take n) : z ∈ l :=
  (mem_sortDescBySql key z l).mp (List.mem_of_mem_take h)

theorem effSqlVal_of_timestamp (m : DanmakuMessage) (n : Int)
    (h : m.timestamp = some n) :
    effSqlVal m = SqliteVal.int n ∧ effectiveTime m = n := by
  constructor
  · rw [effSqlVal, h]
  · rw [effectiveTime, h]
    rfl

/-- C8 counterexample: the engine orders the effective-time expression by
storage class, so a NULL-timestamp row (TEXT strftime fallback, here an
ancient creation time of epoch 100) is returned by recent-messages above a
row with a far larger integer timestamp; the output is not sorted by
numeric effective time descending. -/
theorem recent_null_timestamp_row_sorts_above_integer_row :
    recentRows
        [⟨7, "o7", "nina", "new", "r1", some 2000000000, 2000000000⟩,
          ⟨8, "o8", "olaf", "old", "r1", none, 100⟩] none none =
      [⟨8, "o8", "olaf", "old", "r1", none, 100⟩,
        ⟨7, "o7", "nina", "new", "r1", some 2000000000, 2000000000⟩]
    ∧ effectiveTime ⟨8, "o8", "olaf", "old", "r1", none, 100⟩ <
        effectiveTime ⟨7, "o7", "nina", "new", "r1", some 2000000000, 2000000000⟩ := by
  decide

/-- C8 amended: the one fixed effective-time expression appears verbatim in
the ORDER BY of every time-ordered statement and in the WHERE bound of
every time-window statement the core builds; recent-messages rows come out
sorted descending by the SQLite value of that expression, an order that
puts every NULL-timestamp (TEXT) row above every integer-timestamp row; on
integer-timestamp rows this value order is numeric effective-time order, so
whenever every stored row has a set timestamp the returned rows satisfy
effective_time(A) >= effective_time(B) for A before B. -/
theorem effective_time_uniform_and_engine_order :
    (∀ r l, strContains ("ORDER BY " ++ buildTimestampOrderClause ++ " DESC")
        (recentStmt r l).sql)
    ∧ (∀ o u l st, byUserStmt o u l = some st →
        strContains ("ORDER BY " ++ buildTimestampOrderClause ++ " DESC") st.sql)
    ∧ (∀ raw room lim st, searchStmt raw room lim = some st →
        strContains ("ORDER BY " ++ buildTimestampOrderClause ++ " DESC") st.sql)
    ∧ (∀ now l h, strContains ("WHERE " ++ buildTimestampOrderClause ++ " >= ?")
        (topUsersStmt now l h).sql)
    ∧ (∀ now : Int, strContains ("WHERE " ++ buildTimestampOrderClause ++ " >= ?")
        (unique24hStmt now).sql)
    ∧ (∀ db r l, (recentRows db r l).Pairwise
        (fun a b => sqlValLe (effSqlVal b) (effSqlVal a) = true))
    ∧ (∀ (a b : DanmakuMessage) (na nb : Int), a.timestamp = some na →
        b.timestamp = some nb → sqlValLe (effSqlVal b) (effSqlVal a) = true →
        effectiveTime b ≤ effectiveTime a)
    ∧ (∀ db r l, (∀ m ∈ db, ∃ n, m.timestamp = some n) →
        (recentRows db r l).Pairwise
          (fun a b => effectiveTime b ≤ effectiveTime a)) := by
  refine ⟨?_, ?_, ?_, ?_, ?_, ?_, ?_, ?_⟩
  · intro r l
    rcases hr : truthyVal r with _ | rv <;> simp only [recentStmt, hr] <;>
      rw [strContains_iff_occursIn] <;> decide
  · intro o u l st hst
    rcases h1 : truthyVal o with _ | ov
    · rcases h2 : truthyVal u with _ | uv
      · simp [byUserStmt, h1, h2] at hst
      · simp [byUserStmt, h1, h2] at hst
        rw [← hst]
        dsimp only
        rw [strContains_iff_occursIn]
        decide
    · simp [byUserStmt, h1] at hst
      rw [← hst]
      dsimp only
      rw [strContains_iff_occursIn]
      decide
  · intro raw room lim st hst
    by_cases he : (normalizeKeywords raw).isEmpty
    · simp [searchStmt, he] at hst
    · rcases hr : truthyVal room with _ | rv <;> simp [searchStmt, he, hr] at hst <;>
        rw [← hst] <;> dsimp only <;> apply strContains_suffix5 <;>
        rw [strContains_iff_occursIn] <;> decide
  · intro now l h
    dsimp only [topUsersStmt]
    rw [strContains_iff_occursIn]
    decide
  · intro now
    dsimp only [unique24hStmt]
    rw [strContains_iff_occursIn]
    decide
  · intro db r l
    exact pairwise_take_sortDescBySql effSqlVal _ _
  · intro a b na nb ha hb hle
    obtain ⟨hva, hta⟩ := effSqlVal_of_timestamp a na ha
    obtain ⟨hvb, htb⟩ := effSqlVal_of_timestamp b nb hb
    rw [hva, hvb] at hle
    simp only [sqlValLe, decide_eq_true_eq] at hle
    rw [hta, htb]
    exact hle
  · intro db r l hall
    have hmem : ∀ m ∈ recentRows db r l, m ∈ db := by
      intro m hm
      have h2 : m ∈ recentFiltered db r :=
        mem_take_sortDescBySql effSqlVal m _ _ hm
      rw [recentFiltered] at h2
      cases ht : truthyVal r with
      | none => rw [ht] at h2; exact h2
      | some rv => rw [ht] at h2; exact (List.mem_filter.mp h2).1
    have hp := pairwise_take_sortDescBySql effSqlVal (recentFiltered db r)
      (parseLimit (orDefault l "50") 50 200).toNat
    refine List.Pairwise.imp_of_mem ?_ hp
    intro a b ha hb hle
    obtain ⟨na, hna⟩ := hall a (hmem a ha)
    obtain ⟨nb, hnb⟩ := hall b (hmem b hb)
    obtain ⟨hva, hta⟩ := effSqlVal_of_timestamp a na hna
    obtain ⟨hvb, htb⟩ := effSqlVal_of_timestamp b nb hnb
    rw [hva, hvb] at hle
    simp only [sqlValLe, decide_eq_true_eq] at hle
    rw [hta, htb]
    exact hle

theorem effective_time_engine_order_witness :
    strContains ("ORDER BY " ++ buildTimestampOrderClause ++ " DESC")
      (Stmt.mk
        ("\n            SELECT *\n            FROM danmaku_messages\n            WHERE open_id = ?\n            ORDER BY "
          ++ buildTimestampOrderClause ++ " DESC\n            LIMIT ?\n        ")
        [SqlValue.str "o1", SqlValue.int 100]).sql :=
  effective_time_uniform_and_engine_order.2.1 (some "o1") none none _ rfl

/-- C9 counterexample: a NULL-timestamp row whose creation time is epoch 0
is still counted by the 24h unique-user window at a far later clock,
because its TEXT strftime fallback compares above the integer cutoff; the
windowed count is not a count over rows with effective time at least
now minus 24 hours. -/
theorem null_timestamp_row_passes_any_window_cutoff :
    uniqueUsers24hCount [⟨6, "o6", "eve", "hey", "r1", none, 0⟩] 1999999999 = 1
    ∧ effectiveTime ⟨6, "o6", "eve", "hey", "r1", none, 0⟩ <
        1999999999 - 24 * 3600 := by
  decide

/-- C9 amended: the window parse has fallback 24 and no upper clamp; the
windowed unique-user count is the number of distinct open_id values over
the rows the engine comparison admits, namely the rows whose integer
timestamp reaches now minus N hours in seconds plus every NULL-timestamp
row regardless of age (its TEXT fallback orders above any integer cutoff);
top-senders aggregates (open_id, uname) group counts over the same window,
ordered by count descending and truncated to the parsed limit. -/
theorem window_fallback_no_clamp_and_engine_aggregates :
    (∀ hraw : Option String,
      (truthyVal hraw = none → parseHours (orDefault hraw "24") 24 = 24)
      ∧ (∀ s, truthyVal hraw = some s → parseIntJs s = none →
          parseHours (orDefault hraw "24") 24 = 24)
      ∧ (∀ s n, truthyVal hraw = some s → parseIntJs s = some n → n ≤ 0 →
          parseHours (orDefault hraw "24") 24 = 24)
      ∧ (∀ s n, truthyVal hraw = some s → parseIntJs s = some n → 0 < n →
          parseHours (orDefault hraw "24") 24 = n))
    ∧ (∀ db now, uniqueUsers24hCount db now =
        ((windowRows db now 24).map (fun m => m.open_id)).toFinset.card)
    ∧ (∀ db now hours m, m ∈ windowRows db now hours ↔
        m ∈ db ∧ ∀ n, m.timestamp = some n → now - hours * 3600 ≤ n)
    ∧ (∀ (m : DanmakuMessage) (c : Int), m.timestamp = none →
        sqlValLe (SqliteVal.int c) (effSqlVal m) = true)
    ∧ (∀ db now lraw hraw t, t ∈ topUsersRows db now lraw hraw →
        (∃ m ∈ windowRows db now (parseHours (orDefault hraw "24") 24),
            m.open_id = t.open_id ∧ m.uname = t.uname)
        ∧ t.messageCount = ((windowRows db now
            (parseHours (orDefault hraw "24") 24)).filter
              (fun m => m.open_id == t.open_id && m.uname == t.uname)).length)
    ∧ (∀ db now lraw hraw, (topUsersRows db now lraw hraw).Pairwise
        (fun a b => b.messageCount ≤ a.messageCount))
    ∧ (∀ db now lraw hraw, (topUsersRows db now lraw hraw).length ≤
        (parseLimit (orDefault lraw "10") 10 100).toNat) := by
  refine ⟨?_, ?_, ?_, ?_, ?_, ?_, ?_⟩
  · intro hraw
    refine ⟨?_, ?_, ?_, ?_⟩
    · intro h
      simp [orDefault, h, parseHours]
      decide
    · intro s hs hn
      simp [orDefault, hs, parseHours, hn]
    · intro s n hs hn hle
      simp [orDefault, hs, parseHours, hn, hle]
    · intro s n hs hn hpos
      simp [orDefault, hs, parseHours, hn, not_le.mpr hpos]
  · intro db now
    rw [uniqueUsers24hCount, countDistinct, List.card_toFinset]
  · intro db now hours m
    rw [windowRows, List.mem_filter]
    constructor
    · rintro ⟨hdb, hcmp⟩
      refine ⟨hdb, ?_⟩
      intro n hn
      rw [effSqlVal, hn] at hcmp
      simp only [sqlValLe, decide_eq_true_eq] at hcmp
      exact hcmp
    · rintro ⟨hdb, hts⟩
      refine ⟨hdb, ?_⟩
      cases ht : m.timestamp with
      | none =>
        rw [effSqlVal, ht]
        rfl
      | some n =>
        rw [effSqlVal, ht]
        simp only [sqlValLe, decide_eq_true_eq]
        exact hts n ht
  · intro m c h
    rw [effSqlVal, h]
    rfl
  · intro db now lraw hraw t ht
    simp only [topUsersRows] at ht
    have hgroups := mem_take_sortDescBy (fun t => (t.messageCount : Int)) t _ _ ht
    rw [List.mem_map] at hgroups
    obtain ⟨k, hk, hkt⟩ := hgroups
    rw [topUsersKeys, List.mem_dedup, List.mem_map] at hk
    obtain ⟨m, hm, hmk⟩ := hk
    constructor
    · refine ⟨m, hm, ?_, ?_⟩
      · rw [← hkt, ← hmk]
      · rw [← hkt, ← hmk]
    · rw [← hkt]
  · intro db now lraw hraw
    have h := pairwise_take_sortDescBy (fun t : TopUser => (t.messageCount : Int))
      ((topUsersKeys (windowRows db now (parseHours (orDefault hraw "24") 24))).map
        (fun k => TopUser.mk k.2 k.1
          (((windowRows db now (parseHours (orDefault hraw "24") 24)).filter
            (fun m => m.open_id == k.1 && m.uname == k.2)).length)))
      (parseLimit (orDefault lraw "10") 10 100).toNat
    exact h.imp (fun hab => Int.ofNat_le.mp hab)
  · intro db now lraw hraw
    exact List.length_take_le _ _

theorem window_engine_witness :
    parseHours (orDefault (some "9999") "24") 24 = 9999 ∧
      parseHours (orDefault (some "abc") "24") 24 = 24 :=
  ⟨(window_fallback_no_clamp_and_engine_aggregates.1 (some "9999")).2.2.2 "9999"
      9999 (by decide) (by decide) (by decide),
    (window_fallback_no_clamp_and_engine_aggregates.1 (some "abc")).2.1 "abc"
      (by decide) (by decide)⟩
